import Mathlib

/-!
A verification development for the `cod` terminal-drawing crate.

The crate emits ANSI escape sequences.  Output is modelled structurally:
`Eff.pix c x y` stands for `pixel(c, x, y)` (the escape `{y+1};{x+1}H`
followed by the character `c`), and `Eff.sgr ps` stands for
`escape("p1;p2;...;pkm")`, an SGR escape whose numeric parameters are the
list `ps` (so the fg-reset `39m` is `Eff.sgr [39]`, an indexed foreground
color `38;5;{n}m` is `Eff.sgr [38, 5, n]`, and so on).

Machine integers are embedded as `Nat` / `ℤ` with explicit reduction
modulo `2^32` (resp. centered reduction for `i32`) wherever the source's
`u32` / `i32` arithmetic can wrap under release semantics.  `i64`
arithmetic is carried out over `ℤ` (ideal values); representability in
`i64` is a stated side condition where it is at issue.
-/

namespace Cod

/-- One unit of emitted terminal output. -/
inductive Eff where
  | pix (c : Char) (x y : Nat)
  | sgr (ps : List Nat)
deriving DecidableEq

/-- `2 ^ 32`, the modulus of `u32` arithmetic. -/
def W32 : Nat := 2 ^ 32

/-- The orthogonality-violation error: the old `orth_line` of `src/lib.rs`
returns it as the static string `Cannot draw non-ortho lines with orth-line`;
the final revision's crate root declares the unit struct `NonOrthogonal`. -/
inductive NonOrthogonal where
  | mk
deriving DecidableEq

/-- Iteration count of the `u32` loop `while v != max + 1 { ...; v += 1 }`
started at `v = min`, under release (wrapping) semantics of `max + 1`:
`((max + 1) mod 2^32 - min) mod 2^32`.  For `min ≤ max` and
`max < 2^32 - 1` this is just `max + 1 - min`. -/
def spanCount (lo hi : Nat) : Nat := ((hi + 1) % W32 + W32 - lo) % W32

/-- `orth_line` of `src/lib.rs` lines 92-116: errors iff `x1 ≠ x2` and
`y1 ≠ y2`; otherwise walks the span from `min` to `max` inclusive on the
varying axis, emitting one `pixel` per cell.  Result: the emitted effects
paired with the error, if any (nothing is emitted on the error path). -/
def orth_line (c : Char) (x1 y1 x2 y2 : Nat) : List Eff × Option NonOrthogonal :=
  if x1 ≠ x2 ∧ y1 ≠ y2 then ([], some NonOrthogonal.mk)
  else if x1 ≠ x2 then
    ((List.range (spanCount (min x1 x2) (max x1 x2))).map fun i =>
      Eff.pix c (min x1 x2 + i) y1, none)
  else
    ((List.range (spanCount (min y1 y2) (max y1 y2))).map fun i =>
      Eff.pix c x1 (min y1 y2 + i), none)

/-- Centered reduction: the `i32` value whose bit pattern the ideal integer
`v` wraps to (release semantics of `i32` overflow). -/
def i32w (v : ℤ) : ℤ := (v + 2 ^ 31) % 2 ^ 32 - 2 ^ 31

/-- Wrapping `u32` subtraction `a - b` (release semantics). -/
def u32sub (a b : Nat) : Nat := (a + W32 - b % W32) % W32

/-- The rasterization loop of `line`, `src/lib.rs` lines 150-167: one pixel
per iteration; the error accumulator `err` (an `i32`, kept wrapped) drives
the minor-axis bumps.  `n` is the remaining iteration count.  The two `err`
updates of an iteration are fused into one `i32w` reduction (valid since
centered reduction is idempotent across sums), and the pixel coordinates,
`i32` sums cast `as u32`, reduce to the ideal sum modulo `2^32`. -/
def lineSteps (c : Char) (x1 y1 xx xy yx yy dx dy : ℤ) :
    Nat → ℤ → ℤ → ℤ → List Eff
  | 0, _, _, _ => []
  | n + 1, x, y, err =>
    Eff.pix c ((x1 + x * xx + y * yx) % (2 ^ 32 : ℤ)).toNat
              ((y1 + x * xy + y * yy) % (2 ^ 32 : ℤ)).toNat ::
    (if err ≥ 0 then
      lineSteps c x1 y1 xx xy yx yy dx dy n (x + 1) (y + 1)
        (i32w (err - 2 * dx + 2 * dy))
    else
      lineSteps c x1 y1 xx xy yx yy dx dy n (x + 1) y (i32w (err + 2 * dy)))

/-- `line` of `src/lib.rs` lines 119-170.  Note: line 121 of the source
calls `orth_line(c, x1, x2, y1, y2)` — the second and third arguments are
transposed relative to `orth_line`'s `(c, x1, y1, x2, y2)` signature — and
that transposition is kept verbatim here.  The general branch follows lines
125-167: `dx`/`dy` are the wrapping `u32` differences reinterpreted as
`i32`; `sx`/`sy` test the wrapping difference `> 0` as `u32` (so they are
`1` whenever the endpoints differ on that axis); the loop runs while
`x <= dx`, i.e. `(dx + 1).toNat` times. -/
def line (c : Char) (x1 y1 x2 y2 : Nat) : List Eff × Option NonOrthogonal :=
  if x1 = x2 ∨ y1 = y2 then orth_line c x1 x2 y1 y2
  else
    let dx0 : ℤ := i32w (u32sub x2 x1)
    let dy0 : ℤ := i32w (u32sub y2 y1)
    let sx : ℤ := if 0 < u32sub x2 x1 then 1 else -1
    let sy : ℤ := if 0 < u32sub y2 y1 then 1 else -1
    let p : ℤ × ℤ × ℤ × ℤ × ℤ × ℤ :=
      if dx0 > dy0 then (dx0, dy0, sx, 0, 0, sy) else (dy0, dx0, 0, sy, sx, 0)
    match p with
    | (dx, dy, xx, xy, yx, yy) =>
      (lineSteps c (x1 : ℤ) (y1 : ℤ) xx xy yx yy dx dy
        (dx + 1).toNat 0 0 (i32w (2 * dy - dx)), none)

/-- The loop of `text`, `src/lib.rs` lines 305-316, with current column
`nx`: on `\n` the column is reset to `x` and the row advanced, and then —
the source arm has no `continue` — a pixel is still emitted for the newline
character itself and `nx` is still incremented. -/
def textGo (x : Nat) : List Char → Nat → Nat → List Eff
  | [], _, _ => []
  | ch :: rest, nx, y =>
    if ch = '\n' then Eff.pix ch x (y + 1) :: textGo x rest (x + 1) (y + 1)
    else Eff.pix ch nx y :: textGo x rest (nx + 1) y

/-- `text` of `src/lib.rs` lines 305-316. -/
def text (s : List Char) (x y : Nat) : List Eff := textGo x s x y

/-- `style::bold` (`src/style.rs`, `do_style!`): emits `1m`. -/
def style.bold : List Eff := [Eff.sgr [1]]

/-- `style::faint`: emits `2m`. -/
def style.faint : List Eff := [Eff.sgr [2]]

/-- `style::italic`: emits `3m`. -/
def style.italic : List Eff := [Eff.sgr [3]]

/-- `style::underline`: emits `4m`. -/
def style.underline : List Eff := [Eff.sgr [4]]

/-- `style::strike`: emits `9m`. -/
def style.strike : List Eff := [Eff.sgr [9]]

/-- `style::de::italic` (`src/style.rs`, `de_style!`): emits `23m`. -/
def style.de.italic : List Eff := [Eff.sgr [23]]

/-- `style::de::underline`: emits `24m`. -/
def style.de.underline : List Eff := [Eff.sgr [24]]

/-- `style::de::strike`: emits `29m`. -/
def style.de.strike : List Eff := [Eff.sgr [29]]

/-- `style::de::weight` (`src/style.rs` lines 52-54): emits `22m`, the
single shared off code for the bold/faint weight axis. -/
def style.de.weight : List Eff := [Eff.sgr [22]]

/-- `style::de::all` (`src/style.rs` lines 40-43): the `de_style!` macro
generates `all()` calling exactly the disables listed in its invocation —
`italic`, `underline`, `strike`.  `weight` is defined outside the macro
and is not called by `all`. -/
def style.de.all : List Eff := style.de.italic ++ style.de.underline ++ style.de.strike

/-- `style::with::bold` (`src/style.rs`, `with_style!`): enable bold, run
the action (represented by its emitted output `f`), then `de::weight`. -/
def style.withBold (f : List Eff) : List Eff := style.bold ++ f ++ style.de.weight

/-- `style::with::faint`: enable faint, run the action, then `de::weight`. -/
def style.withFaint (f : List Eff) : List Eff := style.faint ++ f ++ style.de.weight

/-- Displayed bold/faint/italic/underline/strike state of an
ANSI-compatible terminal. -/
structure SGRState where
  bold : Bool
  faint : Bool
  italic : Bool
  underline : Bool
  strike : Bool
deriving DecidableEq

/-- Terminal interpretation of the SGR codes the style module emits, per
the crate's escape-code table: `1m`/`2m`/`3m`/`4m`/`9m` enable the
respective attribute, `22m` clears both bold and faint, and
`23m`/`24m`/`29m` clear italic/underline/strike. -/
def SGRState.apply (st : SGRState) (e : Eff) : SGRState :=
  match e with
  | Eff.sgr [1] => { st with bold := true }
  | Eff.sgr [2] => { st with faint := true }
  | Eff.sgr [3] => { st with italic := true }
  | Eff.sgr [4] => { st with underline := true }
  | Eff.sgr [9] => { st with strike := true }
  | Eff.sgr [22] => { st with bold := false, faint := false }
  | Eff.sgr [23] => { st with italic := false }
  | Eff.sgr [24] => { st with underline := false }
  | Eff.sgr [29] => { st with strike := false }
  | _ => st

/-- Run a sequence of emitted codes against a terminal state. -/
def SGRState.run (st : SGRState) (es : List Eff) : SGRState :=
  es.foldl SGRState.apply st

/-- A stacked color (`src/color.rs`, `stack::Color`): an 8-bit indexed
color or a true-color RGB triple. -/
inductive Color where
  | C (x : Nat)
  | Rgb (r g b : Nat)
deriving DecidableEq

/-- `Color::fg` of `src/color.rs`: the emission for this color on the
foreground channel (`38;5;{n}m` resp. `38;2;{r};{g};{b}m`). -/
def Color.fgEff : Color → Eff
  | Color.C x => Eff.sgr [38, 5, x]
  | Color.Rgb r g b => Eff.sgr [38, 2, r, g, b]

/-- `Color::bg` of `src/color.rs`: the emission for this color on the
background channel (`48;5;{n}m` resp. `48;2;{r};{g};{b}m`). -/
def Color.bgEff : Color → Eff
  | Color.C x => Eff.sgr [48, 5, x]
  | Color.Rgb r g b => Eff.sgr [48, 2, r, g, b]

/-- `color::stack::fg::push::fg` (`src/color.rs` lines 67-74): emit the
indexed-color sequence, then push the color onto the foreground stack.
The stack is the global `Vec` with its push/`last` end modelled as the
head of the list. -/
def color.push_fg (c : Nat) (st : List Color) : List Color × List Eff :=
  (Color.C c :: st, [(Color.C c).fgEff])

/-- `color::stack::fg::push::tc_fg` (`src/color.rs` lines 77-84). -/
def color.push_tc_fg (r g b : Nat) (st : List Color) : List Color × List Eff :=
  (Color.Rgb r g b :: st, [(Color.Rgb r g b).fgEff])

/-- `color::stack::bg::push::bg` (`src/color.rs` lines 112-119). -/
def color.push_bg (c : Nat) (st : List Color) : List Color × List Eff :=
  (Color.C c :: st, [(Color.C c).bgEff])

/-- `color::stack::bg::push::tc_bg` (`src/color.rs` lines 122-129). -/
def color.push_tc_bg (r g b : Nat) (st : List Color) : List Color × List Eff :=
  (Color.Rgb r g b :: st, [(Color.Rgb r g b).bgEff])

/-- `color::stack::fg::pop` (`src/color.rs` lines 88-97): `Vec::pop` the
top — a no-op on the empty stack, without panicking — then emit the new
top's sequence if the stack is now non-empty and the default reset `39m`
otherwise. -/
def color.pop_fg (st : List Color) : List Color × List Eff :=
  match st.tail.head? with
  | some c => (st.tail, [c.fgEff])
  | none => (st.tail, [Eff.sgr [39]])

/-- `color::stack::bg::pop` (`src/color.rs` lines 133-142): as `pop_fg`,
with the background default reset `49m`. -/
def color.pop_bg (st : List Color) : List Color × List Eff :=
  match st.tail.head? with
  | some c => (st.tail, [c.bgEff])
  | none => (st.tail, [Eff.sgr [49]])

/-- `color::with::fg` (`src/color.rs`, `with_color!`, lines 238-247) under
the default `color_stack` feature.  The action is represented by its
emitted output `f` plus a flag `panics`; when `panics` is true execution
unwinds right after the action and the pop is skipped (the source has no
unwind guard).  Note the source pushes twice: `super::fg(color)` is itself
`stack::fg::push::fg` when `color_stack` is enabled, and the macro then
pushes again via the explicit `super::stack::fg::push::fg(color)`. -/
def color.with_fg (c : Nat) (f : List Eff) (panics : Bool) (st : List Color) :
    List Color × List Eff :=
  let s1 := color.push_fg c st
  let s2 := color.push_fg c s1.1
  if panics then (s2.1, s1.2 ++ s2.2 ++ f)
  else
    let s3 := color.pop_fg s2.1
    (s3.1, s1.2 ++ s2.2 ++ f ++ s3.2)

/-- C1: for the vertical segment `(5,0)-(5,3)` the claim says `line`
succeeds and emits exactly `orth_line`'s pixel sequence; instead, because
line 121 of the source transposes the arguments (`orth_line(c, x1, x2, y1,
y2)`), `line` returns the orthogonality error and emits nothing, while
`orth_line` succeeds with the four pixels `(5,0)..(5,3)`. -/
theorem line_orth_dispatch_bug :
    line '*' 5 0 5 3 = ([], some NonOrthogonal.mk) ∧
    orth_line '*' 5 0 5 3 =
      ([Eff.pix '*' 5 0, Eff.pix '*' 5 1, Eff.pix '*' 5 2, Eff.pix '*' 5 3],
        none) := by
  constructor <;> decide

/-- C7: on the input `"a\nb"` at origin `(0,0)` the claim says no pixel is
emitted for the newline and `b` lands at column 0 of row 1; instead the
source (whose `\n` arm lacks a `continue`) emits a pixel for the newline
character at `(0,1)` and places `b` at column 1 of row 1. -/
theorem text_newline_pixel_bug :
    text (['a'] ++ ['\n'] ++ ['b']) 0 0 =
      [Eff.pix 'a' 0 0, Eff.pix '\n' 0 1, Eff.pix 'b' 1 1] := by
  decide

/-- C5: `style::de::all()` emits exactly the off codes `23m`, `24m`, `29m`
and never the shared weight-off `22m` — the `de_style!` macro generates
`all` over italic/underline/strike only, and `weight` is never called —
so, contrary to the claim, a displayed bold is still bold after `all`. -/
theorem style_de_all_misses_weight :
    style.de.all = [Eff.sgr [23], Eff.sgr [24], Eff.sgr [29]] ∧
    Eff.sgr [22] ∉ style.de.all ∧
    (SGRState.run ⟨true, false, false, false, false⟩ style.de.all).bold = true := by
  decide

/-- C9: `style::de::weight()` emits exactly `22m`; for every action output
`f`, `with::bold(f)` emits `1m`, then `f`, then `22m`, and `with::faint(f)`
emits `2m`, then `f`, then `22m`; and enabling bold then emitting the
shared weight-off leaves the displayed state neither bold nor faint. -/
theorem style_weight_shared_off (f : List Eff) :
    style.de.weight = [Eff.sgr [22]] ∧
    style.withBold f = Eff.sgr [1] :: (f ++ [Eff.sgr [22]]) ∧
    style.withFaint f = Eff.sgr [2] :: (f ++ [Eff.sgr [22]]) ∧
    (SGRState.run ⟨false, false, false, false, false⟩
      (style.bold ++ style.de.weight)).bold = false ∧
    (SGRState.run ⟨false, false, false, false, false⟩
      (style.bold ++ style.de.weight)).faint = false :=
  ⟨rfl, rfl, rfl, rfl, rfl⟩

/-- C3: already on the normal exit path (no panic), `with::fg(2, f)` run
with the foreground stack holding previously-active color `Indexed 1`
leaves the stack one element deeper than it began — the color is pushed
twice and popped once — and the last emitted sequence is `38;5;2m`, not
the previously-active `38;5;1m`; with a panicking action nothing is popped
at all, leaving the stack two deeper. -/
theorem color_with_fg_depth_bug :
    (color.with_fg 2 [] false [Color.C 1]).1 = [Color.C 2, Color.C 1] ∧
    (color.with_fg 2 [] false [Color.C 1]).2 =
      [Eff.sgr [38, 5, 2], Eff.sgr [38, 5, 2], Eff.sgr [38, 5, 2]] ∧
    (color.with_fg 2 [] true [Color.C 1]).1 =
      [Color.C 2, Color.C 2, Color.C 1] := by
  decide

/-- C4: `pop_fg` and `pop_bg` remove the top element if any (popping the
empty stack leaves it empty, without underflow), then emit the new top's
color sequence when the stack is now non-empty and the channel's default
reset (`39m` resp. `49m`) when it is now empty; consequently, after
pushing `a` then `b` onto the empty foreground stack, one pop emits `a`'s
sequence `38;5;{a}m` and a further pop emits the default `39m`, leaving
the stack empty. -/
theorem color_pop_restores (st : List Color) (a b : Nat) :
    (color.pop_fg st).1 = st.tail ∧
    (color.pop_bg st).1 = st.tail ∧
    (color.pop_fg st).2 = [(st.tail.head?).elim (Eff.sgr [39]) Color.fgEff] ∧
    (color.pop_bg st).2 = [(st.tail.head?).elim (Eff.sgr [49]) Color.bgEff] ∧
    color.pop_fg [] = ([], [Eff.sgr [39]]) ∧
    color.pop_bg [] = ([], [Eff.sgr [49]]) ∧
    (color.pop_fg (color.push_fg b (color.push_fg a []).1).1).2 =
      [Eff.sgr [38, 5, a]] ∧
    (color.pop_fg (color.pop_fg (color.push_fg b (color.push_fg a []).1).1).1).2 =
      [Eff.sgr [39]] ∧
    (color.pop_fg (color.pop_fg (color.push_fg b (color.push_fg a []).1).1).1).1 =
      [] := by
  refine ⟨?_, ?_, ?_, ?_, rfl, rfl, rfl, rfl, rfl⟩ <;>
  · rcases h : st.tail.head? with _ | c <;>
      simp [color.pop_fg, color.pop_bg, h]

/-- Modelled from the spec: the crate-root `orth_line` that `src/rect.rs`
calls (`use crate::{NonOrthogonal, pixel, orth_line}`) is not among the
provided sources — only this caller is.  Per the spec's Shape/Draw Layer,
`orthogonal_line` "fails with an 'orthogonality violated' condition if
neither x-equal nor y-equal holds; otherwise walks the inclusive span
emitting one pixel per cell", the span running from `min` to `max`
inclusive. -/
def orthLine (c : Char) (x1 y1 x2 y2 : Nat) : List Eff × Option NonOrthogonal :=
  if x1 ≠ x2 ∧ y1 ≠ y2 then ([], some NonOrthogonal.mk)
  else if x1 ≠ x2 then
    ((List.range (max x1 x2 - min x1 x2 + 1)).map fun i =>
      Eff.pix c (min x1 x2 + i) y1, none)
  else
    ((List.range (max y1 y2 - min y1 y2 + 1)).map fun i =>
      Eff.pix c x1 (min y1 y2 + i), none)

/-- Error-propagating sequencing of two draws (Rust `?`): on an error of
the first, the second is not run and emits nothing. -/
def andThen (a b : List Eff × Option NonOrthogonal) :
    List Eff × Option NonOrthogonal :=
  match a.2 with
  | some e => (a.1, some e)
  | none => (a.1 ++ b.1, b.2)

/-- `rect::line` of `src/rect.rs` lines 61-68: four edges, each drawn with
the crate-root `orth_line`, with `?`-propagation after each. -/
def rect.line (c : Char) (x1 y1 x2 y2 : Nat) : List Eff × Option NonOrthogonal :=
  andThen (orthLine c x1 y1 x1 y2)
    (andThen (orthLine c x1 y1 x2 y1)
      (andThen (orthLine c x2 y2 x1 y2) (orthLine c x2 y2 x2 y1)))

/-- The loop of `rect::fill` (`src/rect.rs` lines 166-170): `while y != y2`
with wrapping `u32` increment.  `n` is the remaining iteration count
`(y2 - y) mod 2^32` and the row index advances as `(y + 1) mod 2^32`;
`?`-propagation stops the loop at the first failing row. -/
def rect.fillSteps (c : Char) (x1 x2 : Nat) :
    Nat → Nat → List Eff × Option NonOrthogonal
  | 0, _ => ([], none)
  | n + 1, y =>
    andThen (orthLine c x1 y x2 y) (rect.fillSteps c x1 x2 n ((y + 1) % W32))

/-- `rect::fill` of `src/rect.rs` lines 165-173. -/
def rect.fill (c : Char) (x1 y1 x2 y2 : Nat) : List Eff × Option NonOrthogonal :=
  rect.fillSteps c x1 x2 ((y2 + W32 - y1 % W32) % W32) y1

lemma orthLine_snd_none (c : Char) (x1 y1 x2 y2 : Nat)
    (h : x1 = x2 ∨ y1 = y2) : (orthLine c x1 y1 x2 y2).2 = none := by
  unfold orthLine
  split_ifs with h1 h2 <;> first | rfl | (exact absurd h (by tauto))

lemma andThen_none (a b : List Eff × Option NonOrthogonal) (h : a.2 = none) :
    andThen a b = (a.1 ++ b.1, b.2) := by
  unfold andThen
  rw [h]

/-- C6 counterexample: the "diagonal rectangle" request
`rect::line('#', 0, 0, 2, 2)` has `x1 ≠ x2` and `y1 ≠ y2`, yet it returns
`Ok` and emits all four edges (12 pixels); the claimed `NonOrthogonal`
failure does not occur. -/
theorem rect_line_diag_ok :
    (rect.line '#' 0 0 2 2).2 = none ∧
    (rect.line '#' 0 0 2 2).1.length = 12 := by
  decide

/-- C6 (amended): for every char and all coordinates — in particular
whenever `x1 ≠ x2` and `y1 ≠ y2` — `rect::line` returns `Ok` and emits
its four edges in order: every edge it hands to `orth_line` repeats one of
its endpoint coordinates, so the orthogonality test never fails and no
edge is cut short. -/
theorem rect_line_always_ok (c : Char) (x1 y1 x2 y2 : Nat) :
    (rect.line c x1 y1 x2 y2).2 = none ∧
    (rect.line c x1 y1 x2 y2).1 =
      (orthLine c x1 y1 x1 y2).1 ++ (orthLine c x1 y1 x2 y1).1 ++
        (orthLine c x2 y2 x1 y2).1 ++ (orthLine c x2 y2 x2 y1).1 := by
  have e1 := orthLine_snd_none c x1 y1 x1 y2 (Or.inl rfl)
  have e2 := orthLine_snd_none c x1 y1 x2 y1 (Or.inr rfl)
  have e3 := orthLine_snd_none c x2 y2 x1 y2 (Or.inr rfl)
  have e4 := orthLine_snd_none c x2 y2 x2 y1 (Or.inl rfl)
  unfold rect.line
  rw [andThen_none _ _ e3, andThen_none _ _ e2, andThen_none _ _ e1]
  simp [e4, List.append_assoc]

lemma orthLine_row_len (c : Char) (x1 x2 y : Nat) :
    (orthLine c x1 y x2 y).1.length = (orthLine c x1 0 x2 0).1.length := by
  unfold orthLine
  by_cases h : x1 = x2 <;> simp [h]

lemma fillSteps_len (c : Char) (x1 x2 : Nat) :
    ∀ n y, (rect.fillSteps c x1 x2 n y).1.length =
      n * (orthLine c x1 0 x2 0).1.length := by
  intro n
  induction n with
  | zero => intro y; simp [rect.fillSteps]
  | succ m ih =>
    intro y
    have hrow := orthLine_snd_none c x1 y x2 y (Or.inr rfl)
    unfold rect.fillSteps
    rw [andThen_none _ _ hrow]
    simp [ih, orthLine_row_len, Nat.succ_mul, Nat.add_comm]

/-- C8 counterexample: for the reversed bounds `y1 = 1 > y2 = 0` the row
set `y1 ≤ y < y2` is empty, so the claim says the call draws nothing; the
source's `while y != y2` loop instead wraps through the whole `u32` range,
emitting `2^32 - 1` rows of three pixels each. -/
theorem rect_fill_reversed_draws :
    (rect.fill '#' 0 1 2 0).1.length = (2 ^ 32 - 1) * 3 := by
  have h : rect.fill '#' 0 1 2 0 = rect.fillSteps '#' 0 2 (2 ^ 32 - 1) 1 := by
    unfold rect.fill
    norm_num [W32]
  rw [h, fillSteps_len]
  norm_num [orthLine]

lemma fillSteps_rows (c : Char) (x1 x2 : Nat) :
    ∀ n y, y + n ≤ W32 →
      rect.fillSteps c x1 x2 n y =
        (((List.range n).map fun i => (orthLine c x1 (y + i) x2 (y + i)).1).flatten,
          none) := by
  intro n
  induction n with
  | zero => intro y _; rfl
  | succ m ih =>
    intro y hy
    have hrow := orthLine_snd_none c x1 y x2 y (Or.inr rfl)
    unfold rect.fillSteps
    rw [andThen_none _ _ hrow]
    rcases Nat.eq_zero_or_pos m with hm | hm
    · subst hm
      simp [rect.fillSteps, List.range_succ]
    · have hlt : y + 1 < W32 := by omega
      rw [Nat.mod_eq_of_lt hlt, ih (y + 1) (by omega)]
      have hshift : ∀ i : Nat, y + 1 + i = y + (i + 1) := fun i => by omega
      simp only [List.range_succ_eq_map, List.map_cons, List.map_map,
        List.flatten_cons, Nat.add_zero, Function.comp_def, Nat.succ_eq_add_one,
        hshift, Prod.mk.injEq]

/-- C8 (amended): for `y1 ≤ y2 < 2^32`, `rect::fill` returns `Ok` having
drawn exactly one horizontal orthogonal line from `x1` to `x2` at each row
`y1 ≤ y < y2` — the upper bound is exclusive, a call with `y1 = y2` draws
nothing, and an inclusive fill needs `y2 + 1` — and nothing else.  (The
unrestricted claim fails: for `y1 > y2` the `while y != y2` loop wraps
around the whole `u32` range instead of drawing nothing.) -/
theorem rect_fill_rows (c : Char) (x1 y1 x2 y2 : Nat)
    (h1 : y1 ≤ y2) (h2 : y2 < W32) :
    rect.fill c x1 y1 x2 y2 =
      (((List.range (y2 - y1)).map fun i =>
        (orthLine c x1 (y1 + i) x2 (y1 + i)).1).flatten, none) := by
  have hcount : (y2 + W32 - y1 % W32) % W32 = y2 - y1 := by
    rw [Nat.mod_eq_of_lt (show y1 < W32 by omega)]
    have : y2 + W32 - y1 = (y2 - y1) + W32 := by omega
    rw [this, Nat.add_mod_right, Nat.mod_eq_of_lt (by omega)]
  unfold rect.fill
  rw [hcount, fillSteps_rows c x1 x2 (y2 - y1) y1 (by omega)]

/-- C8 witness: the amended theorem at `c = '#'`, `x1 = 0`, `y1 = 1`,
`x2 = 2`, `y2 = 3`: rows 1 and 2 are drawn, row 3 is not. -/
theorem rect_fill_rows_witness :
    (1 ≤ 3 ∧ 3 < W32) ∧
    rect.fill '#' 0 1 2 3 =
      (((List.range (3 - 1)).map fun i =>
        (orthLine '#' 0 (1 + i) 2 (1 + i)).1).flatten, none) :=
  ⟨⟨by decide, by decide⟩, rect_fill_rows '#' 0 1 2 3 (by decide) (by decide)⟩

/-- The line-rasterization iterator of `src/line.rs` (`Iter`): all fields
are `i64` in the source, embedded as their ideal integer values. -/
structure Iter where
  x : ℤ
  y : ℤ
  x1 : ℤ
  y1 : ℤ
  dx : ℤ
  dy : ℤ
  err : ℤ
  xx : ℤ
  xy : ℤ
  yx : ℤ
  yy : ℤ
deriving DecidableEq

/-- `Iter::new` of `src/line.rs` lines 23-55.  Note: the source computes
`err = (dy << 1) - dx` at line 35, before the `dx > dy` test that may swap
`dx` and `dy`, so in the swap branch `err` keeps its pre-swap
initialization.  `sx`/`sy` come from the strict `u32` comparisons
`x2 > x1` / `y2 > y1`, and the deltas are signed differences (never made
non-negative). -/
def Iter.new (x1 y1 x2 y2 : Nat) : Iter :=
  let dx : ℤ := (x2 : ℤ) - (x1 : ℤ)
  let dy : ℤ := (y2 : ℤ) - (y1 : ℤ)
  let sx : ℤ := if x1 < x2 then 1 else -1
  let sy : ℤ := if y1 < y2 then 1 else -1
  let err : ℤ := 2 * dy - dx
  if dx > dy then
    { x := 0, y := 0, x1 := (x1 : ℤ), y1 := (y1 : ℤ), dx := dx, dy := dy,
      err := err, xx := sx, xy := 0, yx := 0, yy := sy }
  else
    { x := 0, y := 0, x1 := (x1 : ℤ), y1 := (y1 : ℤ), dx := dy, dy := dx,
      err := err, xx := 0, xy := sy, yx := sx, yy := 0 }

/-- `Iter::next` of `src/line.rs` lines 60-77: `None` once `x > dx`;
otherwise produce the current cell (the `i64 as u32` casts reduce the
ideal sums modulo `2^32`), bump the minor axis when `err >= 0`, then
advance `err` by `dy << 1` and `x` by one. -/
def Iter.next (it : Iter) : Option ((Nat × Nat) × Iter) :=
  if it.x > it.dx then none
  else
    some ((((it.x1 + it.x * it.xx + it.y * it.yx) % (2 ^ 32 : ℤ)).toNat,
           ((it.y1 + it.x * it.xy + it.y * it.yy) % (2 ^ 32 : ℤ)).toNat),
      { it with
        x := it.x + 1,
        y := if it.err ≥ 0 then it.y + 1 else it.y,
        err := (if it.err ≥ 0 then it.err - 2 * it.dx else it.err) + 2 * it.dy })

/-- Consume the iterator (with fuel `n`), collecting the yielded cells. -/
def Iter.take : Nat → Iter → List (Nat × Nat)
  | 0, _ => []
  | n + 1, it =>
    match it.next with
    | none => []
    | some (p, it2) => p :: Iter.take n it2

/-- The iterator state after `n` calls to `next` (stationary once `next`
returns `none`). -/
def Iter.stepN : Nat → Iter → Iter
  | 0, it => it
  | n + 1, it =>
    match it.next with
    | none => it
    | some (_, it2) => Iter.stepN n it2

/-- The number of cells the iterator will still yield: `next` succeeds
exactly while `x ≤ dx`, and each success increments `x` by one. -/
def Iter.runLen (it : Iter) : Nat := (it.dx + 1 - it.x).toNat

/-- The successor state `next` returns alongside a yielded cell. -/
def Iter.stepOnce (it : Iter) : Iter :=
  { it with
    x := it.x + 1,
    y := if it.err ≥ 0 then it.y + 1 else it.y,
    err := (if it.err ≥ 0 then it.err - 2 * it.dx else it.err) + 2 * it.dy }

/-- `v` is representable as an `i64`. -/
def inI64 (v : ℤ) : Prop := -(2 ^ 63) ≤ v ∧ v < 2 ^ 63

instance (v : ℤ) : Decidable (inI64 v) :=
  inferInstanceAs (Decidable (_ ∧ _))

lemma Iter.next_eq_none (it : Iter) (h : it.dx < it.x) : it.next = none := by
  simp [Iter.next, h]

lemma Iter.next_eq_some (it : Iter) (h : ¬ it.dx < it.x) :
    it.next = some ((((it.x1 + it.x * it.xx + it.y * it.yx) % (2 ^ 32 : ℤ)).toNat,
      ((it.y1 + it.x * it.xy + it.y * it.yy) % (2 ^ 32 : ℤ)).toNat),
      it.stepOnce) := by
  simp [Iter.next, Iter.stepOnce, h]

lemma Iter.new_def (x1 y1 x2 y2 : Nat) :
    Iter.new x1 y1 x2 y2 =
      if ((x2 : ℤ) - x1) > ((y2 : ℤ) - y1) then
        { x := 0, y := 0, x1 := (x1 : ℤ), y1 := (y1 : ℤ),
          dx := (x2 : ℤ) - x1, dy := (y2 : ℤ) - y1,
          err := 2 * ((y2 : ℤ) - y1) - ((x2 : ℤ) - x1),
          xx := if x1 < x2 then 1 else -1, xy := 0, yx := 0,
          yy := if y1 < y2 then 1 else -1 }
      else
        { x := 0, y := 0, x1 := (x1 : ℤ), y1 := (y1 : ℤ),
          dx := (y2 : ℤ) - y1, dy := (x2 : ℤ) - x1,
          err := 2 * ((y2 : ℤ) - y1) - ((x2 : ℤ) - x1),
          xx := 0, xy := if y1 < y2 then 1 else -1,
          yx := if x1 < x2 then 1 else -1, yy := 0 } := rfl

lemma Iter.take_runLen : ∀ (n : Nat) (it : Iter), it.runLen ≤ n →
    (Iter.take n it).length = it.runLen ∧
      (Iter.stepN it.runLen it).next = none := by
  intro n
  induction n with
  | zero =>
    intro it h
    have h0 : it.runLen = 0 := Nat.le_zero.mp h
    have hlt : it.dx < it.x := by
      unfold Iter.runLen at h0
      omega
    exact ⟨by simp [Iter.take, h0], by rw [h0]; exact Iter.next_eq_none it hlt⟩
  | succ m ih =>
    intro it h
    by_cases hlt : it.dx < it.x
    · have h0 : it.runLen = 0 := by unfold Iter.runLen; omega
      have hnone := Iter.next_eq_none it hlt
      exact ⟨by simp [Iter.take, hnone, h0], by rw [h0]; exact hnone⟩
    · have hsome := Iter.next_eq_some it hlt
      have hrl : it.runLen = it.stepOnce.runLen + 1 := by
        have hdx : it.stepOnce.dx = it.dx := rfl
        have hx : it.stepOnce.x = it.x + 1 := rfl
        unfold Iter.runLen
        rw [hdx, hx]
        omega
      obtain ⟨ih1, ih2⟩ := ih it.stepOnce (by omega)
      constructor
      · simp [Iter.take, hsome, ih1, hrl]
      · rw [hrl]
        have hstep : Iter.stepN (it.stepOnce.runLen + 1) it =
            (match it.next with
             | none => it
             | some (_, it2) => Iter.stepN it.stepOnce.runLen it2) := rfl
        rw [hstep, hsome]
        exact ih2

/-- C2: the sequence is not the inclusive, endpoint-to-endpoint Bresenham
rasterization: for the reversed diagonal `(3,3) → (0,0)` the very first
`next()` returns `None` (after the swap `dx = -3`, so `x > dx` holds at
once) and nothing at all is yielded, and for the steep forward segment
`(0,0) → (1,3)` the iterator (whose `err` was initialized before the axis
swap) yields `(0,0), (1,1), (2,2), (2,3)` — leaving the x-range, skipping
cells and missing the endpoint `(1,3)`. -/
theorem iter_not_bresenham :
    (Iter.new 3 3 0 0).next = none ∧
    Iter.take 10 (Iter.new 0 0 1 3) = [(0, 0), (1, 1), (2, 2), (2, 3)] := by
  constructor <;> decide

/-- C10 (amended): `Iter::new` itself stays within `i64` for all `u32`
endpoints (`dx`, `dy`, `err` are representable), and the iterator is total
and finite: it yields exactly `runLen` cells — at most the maximum
coordinate delta plus one — after which `next` returns `None`.  (The
unrestricted no-overflow part of the claim fails: the error accumulator
itself can leave the `i64` range; see the counterexample.) -/
theorem iter_new_total (x1 y1 x2 y2 : Nat)
    (h1 : x1 < W32) (h2 : y1 < W32) (h3 : x2 < W32) (h4 : y2 < W32) :
    inI64 (Iter.new x1 y1 x2 y2).dx ∧ inI64 (Iter.new x1 y1 x2 y2).dy ∧
    inI64 (Iter.new x1 y1 x2 y2).err ∧
    (Iter.new x1 y1 x2 y2).runLen ≤
      max (max x1 x2 - min x1 x2) (max y1 y2 - min y1 y2) + 1 ∧
    (Iter.take ((Iter.new x1 y1 x2 y2).runLen) (Iter.new x1 y1 x2 y2)).length =
      (Iter.new x1 y1 x2 y2).runLen ∧
    (Iter.stepN ((Iter.new x1 y1 x2 y2).runLen) (Iter.new x1 y1 x2 y2)).next =
      none := by
  obtain ⟨hlen, hnone⟩ :=
    Iter.take_runLen ((Iter.new x1 y1 x2 y2).runLen) (Iter.new x1 y1 x2 y2) le_rfl
  have hW : W32 = 4294967296 := by norm_num [W32]
  rw [hW] at h1 h2 h3 h4
  have hp63 : (2 : ℤ) ^ 63 = 9223372036854775808 := by norm_num
  refine ⟨?_, ?_, ?_, ?_, hlen, hnone⟩ <;>
  · rw [Iter.new_def]
    split_ifs <;> (simp only [inI64, Iter.runLen, hp63]; omega)

/-- C10 witness: the amended theorem at endpoints `(0,0) → (3,1)`. -/
theorem iter_new_total_witness :
    (0 < W32 ∧ 3 < W32 ∧ 1 < W32) ∧
    (inI64 (Iter.new 0 0 3 1).dx ∧ inI64 (Iter.new 0 0 3 1).dy ∧
      inI64 (Iter.new 0 0 3 1).err ∧
      (Iter.new 0 0 3 1).runLen ≤
        max (max 0 3 - min 0 3) (max 0 1 - min 0 1) + 1 ∧
      (Iter.take ((Iter.new 0 0 3 1).runLen) (Iter.new 0 0 3 1)).length =
        (Iter.new 0 0 3 1).runLen ∧
      (Iter.stepN ((Iter.new 0 0 3 1).runLen) (Iter.new 0 0 3 1)).next = none) :=
  ⟨⟨by decide, by decide, by decide⟩,
    iter_new_total 0 0 3 1 (by decide) (by decide) (by decide) (by decide)⟩

/-- The state reached after `j` steps of the iterator started as
`Iter::new(0, 2^32-1, 2^32-1, 0)`: `x = j`, `y` is never bumped (the error
accumulator starts negative and only decreases), and the ideal value of
the `i64` accumulator is `err = -3(2^32-1) - 2j(2^32-1)`. -/
def overflowState (j : Nat) : Iter :=
  { x := (j : ℤ), y := 0, x1 := 0, y1 := (2 ^ 32 - 1 : ℤ),
    dx := (2 ^ 32 - 1 : ℤ), dy := -(2 ^ 32 - 1 : ℤ),
    err := -3 * (2 ^ 32 - 1) - 2 * (j : ℤ) * (2 ^ 32 - 1),
    xx := 1, xy := 0, yx := 0, yy := -1 }

lemma overflowState_zero :
    Iter.new 0 (2 ^ 32 - 1) (2 ^ 32 - 1) 0 = overflowState 0 := by
  decide

lemma overflowState_next (j : Nat) (hj : (j : ℤ) ≤ 2 ^ 32 - 1) :
    (overflowState j).next = some ((j, 2 ^ 32 - 1), overflowState (j + 1)) := by
  have hj4 : (j : ℤ) < 4294967296 := by
    have := hj
    norm_num at this
    omega
  have hx : ¬ ((overflowState j).dx < (overflowState j).x) := by
    simp only [overflowState]
    omega
  rw [Iter.next_eq_some _ hx]
  have h1 : ((overflowState j).x1 + (overflowState j).x * (overflowState j).xx +
      (overflowState j).y * (overflowState j).yx) = (j : ℤ) := by
    simp only [overflowState]
    ring
  have h2 : ((overflowState j).y1 + (overflowState j).x * (overflowState j).xy +
      (overflowState j).y * (overflowState j).yy) = ((2 : ℤ) ^ 32 - 1) := by
    simp only [overflowState]
    ring
  rw [h1, h2]
  rw [Int.emod_eq_of_lt (by positivity) (by norm_num; omega)]
  rw [Int.emod_eq_of_lt (by norm_num) (by norm_num)]
  have h3 : ((j : ℤ)).toNat = j := Int.toNat_natCast j
  have h4 : (((2 : ℤ) ^ 32 - 1)).toNat = 2 ^ 32 - 1 := by decide
  have h5 : (overflowState j).stepOnce = overflowState (j + 1) := by
    have herr : ¬ ((overflowState j).err ≥ 0) := by
      have h0 : (0 : ℤ) ≤ 2 * (j : ℤ) * (2 ^ 32 - 1) := by positivity
      simp only [overflowState]
      push_neg
      linarith
    unfold Iter.stepOnce
    rw [if_neg herr, if_neg herr]
    simp only [overflowState, Iter.mk.injEq, and_true, true_and]
    refine ⟨by push_cast; ring, by push_cast; ring⟩
  rw [h3, h4, h5]

lemma overflow_stepN : ∀ (k j : Nat), ((j : ℤ) + (k : ℤ)) ≤ 2 ^ 32 - 1 →
    Iter.stepN k (overflowState j) = overflowState (j + k) := by
  intro k
  induction k with
  | zero => intro j _; simp [Iter.stepN]
  | succ m ih =>
    intro j h
    have hstep : Iter.stepN (m + 1) (overflowState j) =
        (match (overflowState j).next with
         | none => overflowState j
         | some (_, it2) => Iter.stepN m it2) := rfl
    rw [hstep, overflowState_next j (by push_cast at h ⊢; omega)]
    show Iter.stepN m (overflowState (j + 1)) = overflowState (j + (m + 1))
    rw [ih (j + 1) (by push_cast at h ⊢; omega)]
    congr 1
    omega

/-- C10 counterexample: starting from `Iter::new(0, 2^32-1, 2^32-1, 0)`
(four legitimate `u32` endpoints), after `2^30` yielded cells the ideal
value of the error accumulator is `-3(2^32-1) - 2·2^30·(2^32-1) <
-(2^63)`: the `self.err += self.dy << 1` update at line 73 has left the
`i64` range, i.e. the internal delta/error arithmetic does overflow. -/
theorem iter_err_overflow_cex :
    ¬ inI64 ((Iter.stepN (2 ^ 30)
      (Iter.new 0 (2 ^ 32 - 1) (2 ^ 32 - 1) 0)).err) := by
  rw [overflowState_zero, overflow_stepN (2 ^ 30) 0 (by norm_num)]
  unfold overflowState inI64
  push_neg
  intro hle
  exfalso
  norm_num at hle

end Cod
